import Mathlib

/-!
Verification of the Telegram signal-dispatch and callback-correlation core
(`TelegramService`): the signal parser, bullish-message classifier, username
normalization, chat-id lookup, dispatcher, simulation orchestrator and the
callback handler, embedded as pure Lean functions over character lists with
external collaborators (document store, chat transport, simulation RPC)
modelled as an oracle environment and an effect trace.
-/

set_option maxRecDepth 4000

namespace TgSvc

/-! ### Character classes used by the JS regexes -/

def isDigitCh (c : Char) : Bool := '0' ≤ c && c ≤ '9'

def isUpperCh (c : Char) : Bool := 'A' ≤ c && c ≤ 'Z'

/-- JS `\s` restricted to the ASCII whitespace actually occurring in messages. -/
def isSpaceCh (c : Char) : Bool :=
  c == ' ' || c == '\t' || c == '\n' || c == '\r' || c == '\x0b' || c == '\x0c'

/-! ### Elementary string matching -/

/-- Boolean test: `p` matches at the start of `s`. -/
def pre : List Char → List Char → Bool
  | [], _ => true
  | _ :: _, [] => false
  | a :: as, b :: bs => a == b && pre as bs

/-- `p` could match at the start of `s ++ t` for some unknown continuation `t`:
walking char by char, no mismatch occurs before one of the lists runs out. -/
def compat : List Char → List Char → Bool
  | [], _ => true
  | _ :: _, [] => true
  | a :: as, b :: bs => a == b && compat as bs

/-- Substring containment, as JS `String.prototype.includes`. -/
def containsSub (needle : List Char) : List Char → Bool
  | [] => needle.isEmpty
  | c :: rest => pre needle (c :: rest) || containsSub needle rest

/-- `p` occurs as a contiguous substring of `s`. -/
def occursIn (p s : List Char) : Prop := ∃ a b, s = a ++ p ++ b

/-! ### The signal parser (`parseSignalMessage`) -/

/-- After a field label, the regex continues `\s*\$?(\d+\.?\d*)`: greedily skip
whitespace, optionally a dollar sign, then capture one-or-more digits, an
optional dot and further digits.  Returns the captured numeric string. -/
def matchNumAfter (s : List Char) : Option (List Char) :=
  let s1 := s.dropWhile isSpaceCh
  let s2 := match s1 with
    | c :: r => if c = '$' then r else s1
    | [] => s1
  let d1 := s2.takeWhile isDigitCh
  let r1 := s2.dropWhile isDigitCh
  if d1.isEmpty then none
  else match r1 with
    | c :: r2 => if c = '.' then some (d1 ++ '.' :: r2.takeWhile isDigitCh) else some d1
    | [] => some d1

/-- After the token label, the regex continues `\s*([A-Z]+)\s*\(`. -/
def matchTokenAfter (s : List Char) : Option (List Char) :=
  let s1 := s.dropWhile isSpaceCh
  let u := s1.takeWhile isUpperCh
  let r := s1.dropWhile isUpperCh
  if u.isEmpty then none
  else match r.dropWhile isSpaceCh with
    | c :: _ => if c = '(' then some u else none
    | [] => none

/-- `message.match(re)` for a pattern `label` followed by a suffix matcher
`after`: scan left to right for the first position where the whole pattern
matches and return the capture group. -/
def scanWith (after : List Char → Option (List Char)) (label : List Char) :
    List Char → Option (List Char)
  | [] => none
  | c :: rest =>
    if pre label (c :: rest) then
      match after ((c :: rest).drop label.length) with
      | some d => some d
      | none => scanWith after label rest
    else scanWith after label rest

def scanLabelNum : List Char → List Char → Option (List Char) :=
  scanWith matchNumAfter

def scanLabelToken : List Char → List Char → Option (List Char) :=
  scanWith matchTokenAfter

def tokenLabel : List Char := "🏛️ Token:".data

def tp1Label : List Char := "TP1:".data

def tp2Label : List Char := "TP2:".data

def slLabel : List Char := "🛑 Stop Loss:".data

def entryLabel : List Char := "💰 Entry Price:".data

def digitVal (c : Char) : ℕ := c.toNat - 48

def digitsToNat (ds : List Char) : ℕ := ds.foldl (fun a c => 10 * a + digitVal c) 0

/-- JS `parseFloat` on a captured string of shape `\d+(\.\d*)?`, read as an
exact rational. -/
def parseFloatQ (s : List Char) : ℚ :=
  let ip := s.takeWhile isDigitCh
  let rest := s.dropWhile isDigitCh
  match rest with
  | c :: fr =>
    if c = '.' then (digitsToNat ip : ℚ) + (digitsToNat fr : ℚ) / (10 : ℚ) ^ fr.length
    else (digitsToNat ip : ℚ)
  | [] => (digitsToNat ip : ℚ)

structure SignalData where
  token : Option (List Char)
  tp1 : Option ℚ
  tp2 : Option ℚ
  sl : Option ℚ
  entryPrice : Option ℚ
deriving Repr, DecidableEq

/-- `parseSignalMessage(message)`: five independent first-match extractions. -/
def parseSignalMessage (message : List Char) : SignalData :=
  { token := scanLabelToken tokenLabel message
    tp1 := (scanLabelNum tp1Label message).map parseFloatQ
    tp2 := (scanLabelNum tp2Label message).map parseFloatQ
    sl := (scanLabelNum slLabel message).map parseFloatQ
    entryPrice := (scanLabelNum entryLabel message).map parseFloatQ }

/-! ### The message classifier (`isBullishSignal`) -/

def bullishMarker : List Char := "🚀 **Bullish Alert** 🚀".data

def signalBuyMarker : List Char := "📈 **Signal**: Buy".data

/-- `message.includes('🚀 **Bullish Alert** 🚀') || message.includes('📈 **Signal**: Buy')` -/
def isBullishSignal (message : List Char) : Bool :=
  containsSub bullishMarker message || containsSub signalBuyMarker message

/-! ### Username normalization and the correlation token -/

/-- JS `username.replace('@', '')`: with a string pattern, `replace` removes
only the first occurrence, wherever it appears. -/
def cleanUsername : List Char → List Char
  | [] => []
  | c :: rest => if c = '@' then rest else c :: cleanUsername rest

def digitChar (d : ℕ) : Char := Char.ofNat (48 + d)

/-- Decimal rendering of a natural number, as JS template interpolation of
`Date.now()`. -/
def natDigits (n : ℕ) : List Char :=
  if h : n < 10 then [digitChar n]
  else natDigits (n / 10) ++ [digitChar (n % 10)]
decreasing_by exact Nat.div_lt_self (by omega) (by omega)

def simulateTradeTag : List Char := "simulate_trade_".data

/-- The callback payload `simulate_trade_${Date.now()}_${cleanUsername}`. -/
def mkCallbackData (now : ℕ) (cleanU : List Char) : List Char :=
  simulateTradeTag ++ natDigits now ++ '_' :: cleanU

/-! ### External data shapes -/

/-- A document of the `users` collection, as far as this core reads it. -/
structure UserDoc where
  chatId : Option ℤ
  twitterId : Option (List Char)
deriving Repr, DecidableEq

/-- A document of the `safes` collection: `deployments?.arbitrum?.address`. -/
structure SafeDoc where
  arbitrumAddress : Option (List Char)
deriving Repr, DecidableEq

structure TradingPair where
  networkKey : Option (List Char)
  safeAddress : Option (List Char)
  tradeId : Option (List Char)
  status : Option (List Char)
  error : Option (List Char)
deriving Repr, DecidableEq

structure RpcPayload where
  tradingPair : Option TradingPair
  error : Option (List Char)
deriving Repr, DecidableEq

/-- The duck-typed simulation RPC response (`response.data`); every field is
accessed optionally by the service. -/
structure ApiResponse where
  status : Option (List Char)
  signalId : Option (List Char)
  result : Option RpcPayload
deriving Repr, DecidableEq

/-- The request body sent to the signal-processing API. -/
structure ApiBody where
  signalMessage : List Char
  tokenMentioned : Option (List Char)
  tp1 : Option ℚ
  tp2 : Option ℚ
  sl : Option ℚ
  currentPrice : Option ℚ
  maxExitTime : ℕ
  username : List Char
  safeAddress : List Char
deriving Repr, DecidableEq

/-- The interaction event captured by the callback handler (`userData`). -/
structure UserData where
  username : List Char
  chatId : Option ℤ
  chatType : Option (List Char)
  chatUsername : Option (List Char)
  messageId : ℤ
  messageText : List Char
  messageDate : Option ℕ
  callbackQueryId : List Char
  callbackData : List Char
  callbackQueryFrom : List Char
  chatInstance : List Char
  callbackTimestamp : ℕ
  messageTimestamp : Option ℕ
deriving Repr, DecidableEq

/-- The document inserted into `trade_simulations`. -/
structure SimulationRecord where
  status : List Char
  timestamp : ℕ
  username : List Char
  chatId : Option ℤ
  chatType : Option (List Char)
  chatUsername : Option (List Char)
  messageId : ℤ
  messageText : List Char
  messageDate : Option ℕ
  callbackQueryId : List Char
  callbackData : List Char
  callbackQueryFrom : List Char
  chatInstance : List Char
  callbackTimestamp : ℕ
  messageTimestamp : Option ℕ
  apiResponse : ApiResponse
  signalData : SignalData
  twitterId : List Char
  safeAddress : List Char
deriving Repr, DecidableEq

structure InlineButton where
  text : List Char
  callback_data : List Char
deriving Repr, DecidableEq

structure Keyboard where
  inline_keyboard : List (List InlineButton)
deriving Repr, DecidableEq

inductive Err
  | notFoundUser (telegramUsername : List Char)
  | notFoundSafe (twitterId : List Char)
  | notFoundChatId
  | dbConnect
  | rpc
  | insertFail
  | transport
deriving Repr, DecidableEq

/-- Observable calls to the external collaborators, in order. -/
inductive Eff
  | dbFindUser (telegramId : List Char)
  | dbFindSafe (userId : List Char)
  | rpcPost (body : ApiBody)
  | dbInsert (record : SimulationRecord)
  | dbUpdate (record : SimulationRecord)
  | sendWithKeyboard (chatId : ℤ) (text : List Char) (keyboard : Keyboard)
  | sendPlain (chatId : ℤ) (text : List Char)
  | answerCbQuery (text : List Char)
  | reply (text : List Char)
  | editMessage (text : List Char)
  | setProgressTimer
  | clearProgressTimer
deriving Repr, DecidableEq

/-- Oracle for the outcomes of external calls. -/
structure Env where
  connectOk : Bool
  userDoc : Option UserDoc
  safeDoc : Option SafeDoc
  rpcResult : Except Unit ApiResponse
  insertOk : Bool
  sendOk : Bool
  ackOk : Bool
  replyOk : Bool
  editOk : Bool
  editErrOk : Bool
deriving Repr

/-! ### JS truthiness for the optional values this core branches on -/

def optTruthyStr : Option (List Char) → Bool
  | none => false
  | some s => !s.isEmpty

def optTruthyInt : Option ℤ → Bool
  | none => false
  | some n => n != 0

def truthyQ : Option ℚ → Bool
  | none => false
  | some q => q != 0

/-! ### User directory lookups -/

/-- `fetchUserData(telegramUsername)`: two sequential lookups, failing closed
at either stage; returns `{username: twitterId, safeAddress}`. -/
def fetchUserData (env : Env) (telegramUsername : List Char) :
    List Eff × Except Err (List Char × List Char) :=
  if !env.connectOk then ([], .error .dbConnect)
  else
    let effs := [Eff.dbFindUser telegramUsername]
    match env.userDoc with
    | none => (effs, .error (.notFoundUser telegramUsername))
    | some user =>
      if !optTruthyStr user.twitterId then (effs, .error (.notFoundUser telegramUsername))
      else
        let twitterId := user.twitterId.getD []
        let effs2 := effs ++ [Eff.dbFindSafe twitterId]
        match env.safeDoc with
        | none => (effs2, .error (.notFoundSafe twitterId))
        | some safe =>
          if !optTruthyStr safe.arbitrumAddress then
            (effs2, .error (.notFoundSafe twitterId))
          else (effs2, .ok (twitterId, safe.arbitrumAddress.getD []))

/-- `findChatIdByUsername(username)`: fails closed when the user record or its
chat id is missing (or falsy). -/
def findChatIdByUsername (env : Env) (username : List Char) :
    List Eff × Except Err ℤ :=
  if !env.connectOk then ([], .error .dbConnect)
  else
    let effs := [Eff.dbFindUser username]
    match env.userDoc with
    | none => (effs, .error .notFoundChatId)
    | some user =>
      if !optTruthyInt user.chatId then (effs, .error .notFoundChatId)
      else (effs, .ok (user.chatId.getD 0))

/-! ### The simulation RPC call -/

/-- `signalData.entryPrice || (signalData.tp1 && signalData.sl ?
(signalData.tp1 + signalData.sl) / 2 : null)` — JS truthiness, so a value of
`0` falls through. -/
def currentPriceOf (sd : SignalData) : Option ℚ :=
  if truthyQ sd.entryPrice then sd.entryPrice
  else if truthyQ sd.tp1 && truthyQ sd.sl then
    some ((sd.tp1.getD 0 + sd.sl.getD 0) / 2)
  else none

def oneDayMs : ℕ := 86400000

/-- The fixed request shape POSTed to the signal-processing API. -/
def mkApiBody (now : ℕ) (signalData : SignalData)
    (username safeAddress : List Char) : ApiBody :=
  { signalMessage := "buy".data
    tokenMentioned := signalData.token
    tp1 := signalData.tp1
    tp2 := signalData.tp2
    sl := signalData.sl
    currentPrice := currentPriceOf signalData
    maxExitTime := now + oneDayMs
    username := username
    safeAddress := safeAddress }

/-- `simulateTrade(signalData, username, safeAddress)`: build the fixed request
shape and POST it; a network error propagates, otherwise `response.data` is
returned as-is. -/
def simulateTrade (env : Env) (now : ℕ) (signalData : SignalData)
    (username safeAddress : List Char) : List Eff × Except Err ApiResponse :=
  ([Eff.rpcPost (mkApiBody now signalData username safeAddress)],
    match env.rpcResult with
    | .error _ => .error .rpc
    | .ok r => .ok r)

/-! ### The simulation orchestrator (`handleSimulateTradeRequest`) -/

def mkSimulationRecord (now : ℕ) (userData : UserData) (signalData : SignalData)
    (apiResponse : ApiResponse) (twitterId safeAddress : List Char) :
    SimulationRecord :=
  { status := "initiated".data
    timestamp := now
    username := userData.username
    chatId := userData.chatId
    chatType := userData.chatType
    chatUsername := userData.chatUsername
    messageId := userData.messageId
    messageText := userData.messageText
    messageDate := userData.messageDate
    callbackQueryId := userData.callbackQueryId
    callbackData := userData.callbackData
    callbackQueryFrom := userData.callbackQueryFrom
    chatInstance := userData.chatInstance
    callbackTimestamp := userData.callbackTimestamp
    messageTimestamp := userData.messageTimestamp
    apiResponse := apiResponse
    signalData := signalData
    twitterId := twitterId
    safeAddress := safeAddress }

/-- `handleSimulateTradeRequest(userData)`: parse the captured message text,
resolve identity and account, call the RPC, then persist one record combining
everything; every error (including the insert failure) is rethrown. -/
def handleSimulateTradeRequest (env : Env) (now : ℕ) (userData : UserData) :
    List Eff × Except Err ApiResponse :=
  if !env.connectOk then ([], .error .dbConnect)
  else
    let signalData := parseSignalMessage userData.messageText
    let f := fetchUserData env userData.username
    match f.2 with
    | .error e => (f.1, .error e)
    | .ok (twitterId, safeAddress) =>
      let s := simulateTrade env now signalData twitterId safeAddress
      match s.2 with
      | .error e => (f.1 ++ s.1, .error e)
      | .ok apiResponse =>
        let record :=
          mkSimulationRecord now userData signalData apiResponse twitterId safeAddress
        (f.1 ++ s.1 ++ [Eff.dbInsert record],
          if env.insertOk then .ok apiResponse else .error .insertFail)

/-- Two invocations of the orchestrator on the same interaction event. -/
def handleSimulateTradeTwice (env : Env) (now : ℕ) (userData : UserData) :
    List Eff :=
  (handleSimulateTradeRequest env now userData).1 ++
    (handleSimulateTradeRequest env now userData).1

/-! ### The dispatcher (`sendMessage`) -/

def simulateButtonText : List Char := "🚀 Simulate Trade".data

structure SendResult where
  ok : Bool
  description : Option (List Char)
deriving Repr, DecidableEq

/-- `sendMessage(username, message)`: normalize the username, resolve the chat
id (failing closed), classify the message, and send it — with exactly one
inline button carrying the correlation token when it is bullish. -/
def sendMessage (env : Env) (now : ℕ) (username message : List Char) :
    List Eff × Except Err SendResult :=
  let cleanU := cleanUsername username
  let c := findChatIdByUsername env cleanU
  match c.2 with
  | .error e => (c.1, .error e)
  | .ok chatId =>
    if isBullishSignal message then
      let keyboard : Keyboard :=
        { inline_keyboard :=
            [[{ text := simulateButtonText
                callback_data := mkCallbackData now cleanU }]] }
      (c.1 ++ [Eff.sendWithKeyboard chatId message keyboard],
        if env.sendOk then
          .ok { ok := true
                description := some "Message sent successfully with inline keyboard".data }
        else .error .transport)
    else
      (c.1 ++ [Eff.sendPlain chatId message],
        if env.sendOk then .ok { ok := true, description := none }
        else .error .transport)

/-! ### The callback correlator (result formatting and handler flow) -/

def escapeUnderscores (s : List Char) : List Char :=
  s.flatMap fun c => if c = '_' then ['\\', '_'] else [c]

/-- `a || d` for an optionally-present string, with JS falsiness of `''`. -/
def orDefault (d : List Char) (o : Option (List Char)) : List Char :=
  match o with
  | some s => if s.isEmpty then d else s
  | none => d

/-- `a || b` keeping optionality. -/
def jsOrStr (a b : Option (List Char)) : Option (List Char) :=
  match a with
  | some s => if s.isEmpty then b else some s
  | none => b

/-- Template interpolation of a possibly-undefined value. -/
def interpOpt (o : Option (List Char)) : List Char :=
  match o with
  | some s => s
  | none => "undefined".data

def tradingPairField (r : ApiResponse) (f : TradingPair → Option (List Char)) :
    Option (List Char) :=
  match r.result with
  | none => none
  | some p =>
    match p.tradingPair with
    | none => none
    | some tp => f tp

def naStr : List Char := "N/A".data

/-- The terminal reply text built from the RPC response by the callback
handler (success / failed / fallback branches, with underscores escaped in
identifiers). -/
def formatReply (r : ApiResponse) : List Char :=
  if r.status == some "success".data then
    "✅ **Trade Simulation Successful!**\n\n🔹 **Signal ID**: `".data ++
      interpOpt r.signalId ++
      "`\n🔹 **Network**: ".data ++
      orDefault naStr (tradingPairField r (fun tp => tp.networkKey)) ++
      "\n🔹 **Safe Address**: `".data ++
      escapeUnderscores (orDefault naStr (tradingPairField r (fun tp => tp.safeAddress))) ++
      "`\n🔹 **Trade ID**: `".data ++
      escapeUnderscores (orDefault naStr (tradingPairField r (fun tp => tp.tradeId))) ++
      "`\n🔹 **Status**: ".data ++
      orDefault naStr (tradingPairField r (fun tp => tp.status)) ++
      "\n\n🚀 Your trade simulation has been processed successfully!".data
  else if r.status == some "failed".data then
    "❌ **Trade Simulation Failed**\n\n🔹 **Signal ID**: `".data ++
      interpOpt r.signalId ++
      "`\n🔹 **Network**: ".data ++
      orDefault naStr (tradingPairField r (fun tp => tp.networkKey)) ++
      "\n🔹 **Error**: `".data ++
      escapeUnderscores (orDefault "Unknown error".data
        (jsOrStr (r.result.bind fun p => p.error)
          (tradingPairField r (fun tp => tp.error)))) ++
      "`\n\nPlease try again or contact support if the issue persists.".data
  else
    "✅ Trade simulation has been initiated for this signal. You will receive updates shortly.".data

def processingAckText : List Char := "🔄 Processing trade simulation...".data

def processingText : List Char :=
  ("⏳ **Processing Trade Simulation...**\n\n🔄 Connecting to trading engine...\n" ++
   "📊 Analyzing signal data...\n⚡ Executing simulation...\n\n*This may take a few moments...*").data

def errorAckText : List Char := "❌ Error processing simulation request".data

def errorReplyText : List Char :=
  "❌ Sorry, there was an error processing your trade simulation. Please try again later.".data

/-- The `simulate_trade_(.+)` action handler: acknowledge, post the processing
message, start the progress timer, run the orchestrator, then edit in the
terminal result — with the error paths of the source (expired acknowledgment
ignored, edit falling back to a fresh reply). -/
def callbackHandler (env : Env) (now : ℕ) (userData : UserData) : List Eff :=
  if !env.ackOk then
    [Eff.answerCbQuery processingAckText, Eff.answerCbQuery errorAckText,
     Eff.reply errorReplyText]
  else if !env.replyOk then
    [Eff.answerCbQuery processingAckText, Eff.reply processingText,
     Eff.answerCbQuery errorAckText, Eff.reply errorReplyText]
  else
    let head := [Eff.answerCbQuery processingAckText, Eff.reply processingText,
                 Eff.setProgressTimer]
    let h := handleSimulateTradeRequest env now userData
    match h.2 with
    | .ok apiResponse =>
      if env.editOk then
        head ++ h.1 ++ [Eff.clearProgressTimer, Eff.editMessage (formatReply apiResponse)]
      else
        head ++ h.1 ++ [Eff.clearProgressTimer, Eff.editMessage (formatReply apiResponse),
          Eff.clearProgressTimer, Eff.answerCbQuery errorAckText] ++
          (if env.editErrOk then [Eff.editMessage errorReplyText]
           else [Eff.editMessage errorReplyText, Eff.reply errorReplyText])
    | .error _ =>
      head ++ h.1 ++ [Eff.clearProgressTimer, Eff.answerCbQuery errorAckText] ++
        (if env.editErrOk then [Eff.editMessage errorReplyText]
         else [Eff.editMessage errorReplyText, Eff.reply errorReplyText])

/-- Effects that belong to the remote simulation workflow (identity lookup,
RPC, persistence) as opposed to the transport-level UX effects. -/
def isWorkflowEff : Eff → Bool
  | .dbFindUser _ => true
  | .dbFindSafe _ => true
  | .rpcPost _ => true
  | .dbInsert _ => true
  | .dbUpdate _ => true
  | _ => false

def isInsertEff : Eff → Bool
  | .dbInsert _ => true
  | _ => false

def isRpcEff : Eff → Bool
  | .rpcPost _ => true
  | _ => false

def isTransportEff : Eff → Bool
  | .sendWithKeyboard _ _ _ => true
  | .sendPlain _ _ => true
  | .answerCbQuery _ => true
  | .reply _ => true
  | .editMessage _ => true
  | _ => false

/-- Canonical decimal rendering of a value given by integer digits `ip` and
fractional digits `fr` (with the dot present exactly when `fr` is nonempty). -/
def decRender (ip fr : List Char) : List Char :=
  match fr with
  | [] => ip
  | _ => ip ++ '.' :: fr

/-- The rational denoted by the decimal digit strings. -/
def decValue (ip fr : List Char) : ℚ :=
  (digitsToNat ip : ℚ) + (digitsToNat fr : ℚ) / (10 : ℚ) ^ fr.length

/-- Character class of a canonical decimal rendering: digits and the dot. -/
def isNumCh (c : Char) : Bool := isDigitCh c || c == '.'

/-! ### The canonical signal-message layout

The repository's own test-signal template, with the labels written exactly as
the parser's fixed markers expect them (markup noise — bold, emoji — appears
everywhere else in the text). -/

def seg0 : List Char := "🚀 **Bullish Alert** 🚀\n\n".data

def seg1 : List Char := [' ']

def seg2 : List Char := ' ' :: '(' :: "uniswap)\n📈 **Signal**: Buy\n".data

def seg3 : List Char := ' ' :: '$' :: []

def seg4 : List Char := '\n' :: "🎯 **Targets**:\n".data

def seg6 : List Char := ['\n']

def seg10 : List Char := '\n' :: "⏳ **Timeline:** Short-term (1-7 days)".data

/-- A signal message carrying the given token and price renderings at the
canonical label markers. -/
def buildSignalMessage (tok e t1 t2 s : List Char) : List Char :=
  seg0 ++ tokenLabel ++ seg1 ++ tok ++ seg2 ++ entryLabel ++ seg3 ++ e ++ seg4 ++
  tp1Label ++ seg3 ++ t1 ++ seg6 ++ tp2Label ++ seg3 ++ t2 ++ seg6 ++
  slLabel ++ seg3 ++ s ++ seg10

/-- Scenario A's message text as the spec writes it (labels unbolded). -/
def scenarioAText : List Char :=
  "🚀 **Bullish Alert** 🚀 ... TP1: $11.37 ... 🛑 Stop Loss: $8.37 ... 💰 Entry Price: $9.37".data

/-- The repository's own test-signal message (`send-test-signal`), whose
labels are wrapped in Markdown bold markers. -/
def boldTestSignalMessage : List Char :=
  ("🚀 **Bullish Alert** 🚀\n\n🏛️ **Token**:  UNI (uniswap)\n📈 **Signal**: Buy\n" ++
   "💰 **Entry Price**: $9.37\n🎯 **Targets**:\nTP1: $11.37\nTP2: $13.37\n" ++
   "🛑 **Stop Loss**: $8.37\n⏳ **Timeline:** Short-term (1-7 days)\n\n💡 **Trade Tip**:\n" ++
   "Falling wedge breakout signaled with high volume, suggesting potential bullish reversal. " ++
   "Entry at current dip with tight stop-loss. Monitor volume sustainability and retest of " ++
   "wedge resistance. Risk management crucial amid recent 12.4% drop.").data

/-! ### Concrete fixtures for witnesses -/

def sampleResponse : ApiResponse :=
  ⟨some "failed".data, some "sig1".data, some ⟨none, some "slippage_exceeded".data⟩⟩

def sampleUserDoc : UserDoc := ⟨some 99, some "tw1".data⟩

def sampleSafeDoc : SafeDoc := ⟨some "0xabc".data⟩

def sampleEnv : Env :=
  ⟨true, some sampleUserDoc, some sampleSafeDoc, .ok sampleResponse,
   false, true, true, true, true, true⟩

def sampleUserData : UserData :=
  ⟨"alice".data, some 7, some "private".data, none, 3,
   "🚀 **Bullish Alert** 🚀 plain follow-up".data, some 1000, "cb1".data,
   "123_alice".data, "from".data, "inst".data, 2000, some 1000⟩

/-! ### Theorems -/

/-! ### Lemmas about elementary matching -/

theorem pre_eq_true_iff (p : List Char) : ∀ s, pre p s = true ↔ ∃ t, s = p ++ t := by
  induction p with
  | nil => intro s; simp [pre]
  | cons a as ih =>
    intro s
    cases s with
    | nil => simp [pre]
    | cons b bs =>
      simp only [pre, Bool.and_eq_true, beq_iff_eq, ih, List.cons_append]
      constructor
      · rintro ⟨rfl, t, rfl⟩; exact ⟨t, rfl⟩
      · rintro ⟨t, ht⟩
        cases ht
        exact ⟨rfl, t, rfl⟩

theorem containsSub_eq_true_iff (p : List Char) :
    ∀ s, containsSub p s = true ↔ occursIn p s := by
  intro s
  induction s with
  | nil =>
    simp only [containsSub, occursIn, List.isEmpty_iff]
    constructor
    · rintro rfl; exact ⟨[], [], rfl⟩
    · rintro ⟨a, b, h⟩
      rcases List.append_eq_nil.mp h.symm with ⟨h1, h2⟩
      rcases List.append_eq_nil.mp h1 with ⟨_, h3⟩
      exact h3
  | cons c rest ih =>
    simp only [containsSub, Bool.or_eq_true, pre_eq_true_iff, ih]
    constructor
    · rintro (⟨t, ht⟩ | ⟨a, b, hab⟩)
      · exact ⟨[], t, by simpa using ht⟩
      · exact ⟨c :: a, b, by simp [hab]⟩
    · rintro ⟨a, b, hab⟩
      cases a with
      | nil => exact Or.inl ⟨b, by simpa using hab⟩
      | cons a0 a' =>
        right
        refine ⟨a', b, ?_⟩
        have := List.cons.injEq c rest a0 (a' ++ p ++ b) ▸ hab
        simpa using (List.cons.inj (by simpa using hab)).2

/-! ### Claim C3 — the classifier decision rule -/

/-- C3: `isBullishSignal(text)` returns true iff the text contains the fixed
substring `🚀 **Bullish Alert** 🚀` or the fixed substring `📈 **Signal**: Buy`
(case-sensitive substring containment); for every other text it returns false.
As a pure total Lean function it is deterministic and never errors. -/
theorem c3_classifier_iff (message : List Char) :
    isBullishSignal message = true ↔
      (occursIn bullishMarker message ∨ occursIn signalBuyMarker message) := by
  simp [isBullishSignal, containsSub_eq_true_iff]

/-! ### Scan lemmas for the regex embedding -/

theorem pre_refl_append (p t : List Char) : pre p (p ++ t) = true := by
  induction p with
  | nil => rfl
  | cons a as ih => simp [pre, ih]

theorem pre_imp_compat (p : List Char) :
    ∀ s, pre p s = true → compat p s = true := by
  induction p with
  | nil => intro s _; rfl
  | cons a as ih =>
    intro s h
    cases s with
    | nil => exact absurd h (by simp [pre])
    | cons b bs =>
      simp only [pre, Bool.and_eq_true] at h
      simp [compat, h.1, ih bs h.2]

theorem compat_false_append (p X s : List Char) (h : compat p X = false) :
    compat p (X ++ s) = false := by
  induction p generalizing X with
  | nil => exact absurd h (by simp [compat])
  | cons a as ih =>
    cases X with
    | nil => exact absurd h (by simp [compat])
    | cons b bs =>
      simp only [compat, Bool.and_eq_false_iff] at h ⊢
      rcases h with h | h
      · exact Or.inl h
      · exact Or.inr (ih bs h)

theorem pre_trunc (p : List Char) :
    ∀ x s, pre p (x ++ s) = true → p.length ≤ x.length → pre p x = true := by
  induction p with
  | nil => intro x s _ _; rfl
  | cons a as ih =>
    intro x s h hlen
    cases x with
    | nil => simp at hlen
    | cons b bs =>
      simp only [List.cons_append, pre, Bool.and_eq_true] at h ⊢
      exact ⟨h.1, ih bs s h.2 (by simpa using hlen)⟩

theorem pre_mem (p : List Char) :
    ∀ x, pre p x = true → ∀ c ∈ p, c ∈ x := by
  induction p with
  | nil => intro x _ c hc; simp at hc
  | cons a as ih =>
    intro x h c hc
    cases x with
    | nil => exact absurd h (by simp [pre])
    | cons b bs =>
      simp only [pre, Bool.and_eq_true, beq_iff_eq] at h
      rcases List.mem_cons.mp hc with rfl | hc
      · exact h.1 ▸ List.mem_cons_self b bs
      · exact List.mem_cons_of_mem b (ih bs h.2 c hc)

theorem pre_short (p : List Char) :
    ∀ x s, pre p (x ++ s) = true → x.length < p.length →
      p.take x.length = x ∧ pre (p.drop x.length) s = true := by
  induction p with
  | nil => intro x s _ hlen; simp at hlen
  | cons a as ih =>
    intro x s h hlen
    cases x with
    | nil => exact ⟨rfl, h⟩
    | cons b bs =>
      simp only [List.cons_append, pre, Bool.and_eq_true, beq_iff_eq] at h
      obtain ⟨h1, h2⟩ := ih bs s h.2 (by simpa using hlen)
      simp [List.take, List.drop, h.1, h1, h2]

theorem scanWith_skip (after : List Char → Option (List Char))
    (label : List Char) :
    ∀ X s, (∀ y x, X = y ++ x → x ≠ [] → pre label (x ++ s) = false) →
      scanWith after label (X ++ s) = scanWith after label s := by
  intro X
  induction X with
  | nil => intro s _; rfl
  | cons c X' ih =>
    intro s h
    have hfalse : pre label (c :: (X' ++ s)) = false := by
      have := h [] (c :: X') rfl (by simp)
      simpa using this
    rw [List.cons_append, scanWith, hfalse]
    simp only [Bool.false_eq_true, if_false]
    exact ih s fun y x hx hne => h (c :: y) x (by rw [hx, List.cons_append]) hne

theorem pre_append_compat (p : List Char) :
    ∀ x s, pre p (x ++ s) = true → compat p x = true := by
  induction p with
  | nil => intro x s _; rfl
  | cons a as ih =>
    intro x s h
    cases x with
    | nil => rfl
    | cons b bs =>
      simp only [List.cons_append, pre, Bool.and_eq_true] at h
      simp [compat, h.1, ih bs s h.2]

/-- Skip a concrete chunk: the label is incompatible with every suffix of the
chunk, so no match can start inside it. -/
theorem scanWith_skipC (after : List Char → Option (List Char))
    (label X s : List Char)
    (h : ∀ n, n < X.length → compat label (X.drop n) = false) :
    scanWith after label (X ++ s) = scanWith after label s := by
  refine scanWith_skip after label X s fun y x hx hne => ?_
  by_contra hpre
  rw [Bool.not_eq_false] at hpre
  have hcompat : compat label x = true := pre_append_compat label x s hpre
  have hdrop : x = X.drop y.length := by rw [hx, List.drop_left]
  have hlen : y.length < X.length := by
    rw [hx, List.length_append]
    rcases List.exists_cons_of_ne_nil hne with ⟨a, as, rfl⟩
    simp
  rw [hdrop] at hcompat
  rw [h y.length hlen] at hcompat
  exact absurd hcompat (by simp)

/-- Skip a variable chunk drawn from a character class `P` (uppercase token,
numeric rendering): the label cannot match entirely inside the chunk because
it has a char outside `P`, and every class-only proper beginning of the label
is incompatible with the continuation `s`. -/
theorem scanWith_skipClass (after : List Char → Option (List Char))
    (label V s : List Char) (P : Char → Bool)
    (hV : ∀ c ∈ V, P c = true)
    (hfull : label.all P = false)
    (hover : ∀ k, 0 < k → k < label.length → (label.take k).all P = true →
        compat (label.drop k) s = false) :
    scanWith after label (V ++ s) = scanWith after label s := by
  refine scanWith_skip after label V s fun y x hx hne => ?_
  by_contra hpre
  rw [Bool.not_eq_false] at hpre
  have hxV : ∀ c ∈ x, P c = true := fun c hc =>
    hV c (hx ▸ List.mem_append_right y hc)
  rcases Nat.lt_or_ge x.length label.length with hlen | hlen
  · obtain ⟨htake, hrest⟩ := pre_short label x s hpre hlen
    have hk := hover x.length (by
        rcases List.exists_cons_of_ne_nil hne with ⟨a, as, rfl⟩
        simp) hlen (by
      rw [htake]
      exact List.all_eq_true.mpr hxV)
    rw [pre_imp_compat _ _ hrest] at hk
    exact absurd hk (by simp)
  · have hlab : pre label x = true := pre_trunc label x s hpre hlen
    have : label.all P = true :=
      List.all_eq_true.mpr fun c hc => hxV c (pre_mem label x hlab c hc)
    rw [hfull] at this
    exact absurd this (by simp)

/-- The scan succeeds at the position where the label literally occurs,
provided the suffix matcher accepts the continuation. -/
theorem scanWith_here (after : List Char → Option (List Char))
    (label B : List Char) (d : List Char) (hl : label ≠ [])
    (hB : after B = some d) :
    scanWith after label (label ++ B) = some d := by
  rcases List.exists_cons_of_ne_nil hl with ⟨c, lt, rfl⟩
  rw [List.cons_append, scanWith]
  have hpre : pre (c :: lt) (c :: (lt ++ B)) = true := by
    have := pre_refl_append (c :: lt) B
    simpa using this
  rw [hpre]
  have hdrop : (c :: (lt ++ B)).drop (c :: lt).length = B := by
    have := List.drop_left (c :: lt) B
    simpa using this
  simp only [if_true, hdrop, hB]

/-- When the label does not occur in the text, the scan yields nothing —
absent fields parse to null. -/
theorem scanWith_none (after : List Char → Option (List Char))
    (label : List Char) :
    ∀ s, ¬ occursIn label s → scanWith after label s = none := by
  intro s
  induction s with
  | nil => intro _; rfl
  | cons c rest ih =>
    intro h
    rw [scanWith]
    have hfalse : pre label (c :: rest) = false := by
      by_contra hp
      rw [Bool.not_eq_false] at hp
      obtain ⟨t, ht⟩ := (pre_eq_true_iff label (c :: rest)).mp hp
      exact h ⟨[], t, by simpa using ht⟩
    rw [hfalse]
    simp only [Bool.false_eq_true, if_false]
    exact ih fun ⟨a, b, hab⟩ => h ⟨c :: a, b, by simp [hab]⟩

/-! ### Evaluating the suffix matchers on canonical continuations -/

theorem takeWhile_app (P : Char → Bool) :
    ∀ l (c0 : Char) (r : List Char), (∀ c ∈ l, P c = true) → P c0 = false →
      (l ++ c0 :: r).takeWhile P = l := by
  intro l
  induction l with
  | nil => intro c0 r _ h0; simp [List.takeWhile, h0]
  | cons a as ih =>
    intro c0 r hl h0
    have ha : P a = true := hl a (List.mem_cons_self a as)
    simp only [List.cons_append, List.takeWhile, ha, List.append_eq]
    rw [ih c0 r (fun c hc => hl c (List.mem_cons_of_mem a hc)) h0]

theorem dropWhile_app (P : Char → Bool) :
    ∀ l (c0 : Char) (r : List Char), (∀ c ∈ l, P c = true) → P c0 = false →
      (l ++ c0 :: r).dropWhile P = c0 :: r := by
  intro l
  induction l with
  | nil => intro c0 r _ h0; simp [List.dropWhile, h0]
  | cons a as ih =>
    intro c0 r hl h0
    have ha : P a = true := hl a (List.mem_cons_self a as)
    simp only [List.cons_append, List.dropWhile, ha, List.append_eq]
    exact ih c0 r (fun c hc => hl c (List.mem_cons_of_mem a hc)) h0

theorem isSpaceCh_false_of_upper {c : Char} (h : isUpperCh c = true) :
    isSpaceCh c = false := by
  simp only [isUpperCh, Bool.and_eq_true, decide_eq_true_eq] at h
  have h65 : 65 ≤ c.toNat := h.1
  simp only [isSpaceCh, Bool.or_eq_false_iff, beq_eq_false_iff_ne, ne_eq]
  refine ⟨⟨⟨⟨⟨?_, ?_⟩, ?_⟩, ?_⟩, ?_⟩, ?_⟩ <;>
    (intro hc; subst hc; simp at h65)

theorem isSpaceCh_false_of_digit {c : Char} (h : isDigitCh c = true) :
    isSpaceCh c = false := by
  simp only [isDigitCh, Bool.and_eq_true, decide_eq_true_eq] at h
  have h48 : 48 ≤ c.toNat := h.1
  simp only [isSpaceCh, Bool.or_eq_false_iff, beq_eq_false_iff_ne, ne_eq]
  refine ⟨⟨⟨⟨⟨?_, ?_⟩, ?_⟩, ?_⟩, ?_⟩, ?_⟩ <;>
    (intro hc; subst hc; simp at h48)

theorem takeWhile_all (P : Char → Bool) :
    ∀ l : List Char, (∀ c ∈ l, P c = true) → l.takeWhile P = l := by
  intro l
  induction l with
  | nil => intro _; rfl
  | cons a as ih =>
    intro h
    simp only [List.takeWhile, h a (List.mem_cons_self a as)]
    rw [ih fun c hc => h c (List.mem_cons_of_mem a hc)]

theorem dropWhile_all (P : Char → Bool) :
    ∀ l : List Char, (∀ c ∈ l, P c = true) → l.dropWhile P = [] := by
  intro l
  induction l with
  | nil => intro _; rfl
  | cons a as ih =>
    intro h
    simp only [List.dropWhile, h a (List.mem_cons_self a as)]
    exact ih fun c hc => h c (List.mem_cons_of_mem a hc)

theorem matchNumAfter_render (ip fr R : List Char)
    (hip : ip ≠ []) (hipd : ∀ c ∈ ip, isDigitCh c = true)
    (hfrd : ∀ c ∈ fr, isDigitCh c = true) :
    matchNumAfter (' ' :: '$' :: (decRender ip fr ++ '\n' :: R)) =
      some (decRender ip fr) := by
  have hsp : isSpaceCh ' ' = true := by decide
  have hdol : isSpaceCh '$' = false := by decide
  have hnl : isDigitCh '\n' = false := by decide
  have hdot : isDigitCh '.' = false := by decide
  have hipE : ip.isEmpty = false := by
    rcases List.exists_cons_of_ne_nil hip with ⟨a, as, rfl⟩
    rfl
  cases fr with
  | nil =>
    show matchNumAfter (' ' :: '$' :: (ip ++ '\n' :: R)) = some ip
    unfold matchNumAfter
    simp only [List.dropWhile, hsp, hdol, Bool.false_eq_true, if_false,
      eq_self_iff_true, if_true,
      takeWhile_app isDigitCh ip '\n' R hipd hnl,
      dropWhile_app isDigitCh ip '\n' R hipd hnl, hipE]
    rw [if_neg (by decide : ¬ ('\n' : Char) = '.')]
  | cons f0 fr' =>
    show matchNumAfter (' ' :: '$' :: ((ip ++ '.' :: (f0 :: fr')) ++ '\n' :: R)) =
      some (ip ++ '.' :: (f0 :: fr'))
    have hassoc : (ip ++ '.' :: (f0 :: fr')) ++ '\n' :: R =
        ip ++ '.' :: ((f0 :: fr') ++ '\n' :: R) := by
      simp
    rw [hassoc]
    unfold matchNumAfter
    simp only [List.dropWhile, hsp, hdol, Bool.false_eq_true, if_false,
      eq_self_iff_true, if_true,
      takeWhile_app isDigitCh ip '.' ((f0 :: fr') ++ '\n' :: R) hipd hdot,
      dropWhile_app isDigitCh ip '.' ((f0 :: fr') ++ '\n' :: R) hipd hdot, hipE,
      takeWhile_app isDigitCh (f0 :: fr') '\n' R hfrd hnl]

theorem matchTokenAfter_render (tok R : List Char)
    (ht : tok ≠ []) (hU : ∀ c ∈ tok, isUpperCh c = true) :
    matchTokenAfter (' ' :: (tok ++ ' ' :: '(' :: R)) = some tok := by
  have hsp : isSpaceCh ' ' = true := by decide
  have hspUp : isUpperCh ' ' = false := by decide
  have hlp : isSpaceCh '(' = false := by decide
  rcases List.exists_cons_of_ne_nil ht with ⟨t0, tok', rfl⟩
  have ht0 : isSpaceCh t0 = false :=
    isSpaceCh_false_of_upper (hU t0 (List.mem_cons_self t0 tok'))
  have htw : List.takeWhile isUpperCh (t0 :: (tok' ++ ' ' :: '(' :: R)) =
      t0 :: tok' := by
    have := takeWhile_app isUpperCh (t0 :: tok') ' ' ('(' :: R) hU hspUp
    simpa using this
  have hdw : List.dropWhile isUpperCh (t0 :: (tok' ++ ' ' :: '(' :: R)) =
      ' ' :: '(' :: R := by
    have := dropWhile_app isUpperCh (t0 :: tok') ' ' ('(' :: R) hU hspUp
    simpa using this
  have hs1 : List.dropWhile isSpaceCh
      (' ' :: ((t0 :: tok') ++ ' ' :: '(' :: R)) =
      t0 :: (tok' ++ ' ' :: '(' :: R) := by
    simp [List.dropWhile_cons, hsp, ht0]
  unfold matchTokenAfter
  simp only [hs1, htw, hdw, List.isEmpty_cons, Bool.false_eq_true, if_false,
    List.dropWhile_cons, hsp, hlp, eq_self_iff_true, if_true]

theorem parseFloatQ_decRender (ip fr : List Char)
    (hipd : ∀ c ∈ ip, isDigitCh c = true)
    (hfrd : ∀ c ∈ fr, isDigitCh c = true) :
    parseFloatQ (decRender ip fr) = decValue ip fr := by
  have hdot : isDigitCh '.' = false := by decide
  cases fr with
  | nil =>
    show parseFloatQ ip = decValue ip []
    unfold parseFloatQ
    rw [takeWhile_all isDigitCh ip hipd, dropWhile_all isDigitCh ip hipd]
    simp [decValue, digitsToNat]
  | cons f0 fr' =>
    show parseFloatQ (ip ++ '.' :: (f0 :: fr')) = decValue ip (f0 :: fr')
    unfold parseFloatQ
    rw [takeWhile_app isDigitCh ip '.' (f0 :: fr') hipd hdot,
      dropWhile_app isDigitCh ip '.' (f0 :: fr') hipd hdot]
    simp [decValue]

theorem decRender_class (ip fr : List Char)
    (hipd : ∀ c ∈ ip, isDigitCh c = true)
    (hfrd : ∀ c ∈ fr, isDigitCh c = true) :
    ∀ c ∈ decRender ip fr, isNumCh c = true := by
  cases fr with
  | nil =>
    intro c hc
    simp [isNumCh, hipd c hc]
  | cons f0 fr' =>
    intro c hc
    rcases List.mem_append.mp hc with hc | hc
    · simp [isNumCh, hipd c hc]
    · rcases List.mem_cons.mp hc with rfl | hc
      · simp [isNumCh]
      · simp [isNumCh, hfrd c hc]

theorem matchTokenAfter_canon (tok R : List Char) (htok : tok ≠ [])
    (htokU : ∀ c ∈ tok, isUpperCh c = true) :
    matchTokenAfter (seg1 ++ (tok ++ (seg2 ++ R))) = some tok := by
  have h : seg1 ++ (tok ++ (seg2 ++ R)) =
      ' ' :: (tok ++ ' ' :: '(' ::
        ("uniswap)\n📈 **Signal**: Buy\n".data ++ R)) := by
    simp [seg1, seg2]
  rw [h]
  exact matchTokenAfter_render tok _ htok htokU

theorem matchNumAfter_seg4 (ip fr R : List Char)
    (hip : ip ≠ []) (hipd : ∀ c ∈ ip, isDigitCh c = true)
    (hfrd : ∀ c ∈ fr, isDigitCh c = true) :
    matchNumAfter (seg3 ++ (decRender ip fr ++ (seg4 ++ R))) =
      some (decRender ip fr) := by
  have h : seg3 ++ (decRender ip fr ++ (seg4 ++ R)) =
      ' ' :: '$' :: (decRender ip fr ++ '\n' :: ("🎯 **Targets**:\n".data ++ R)) := by
    simp [seg3, seg4]
  rw [h]
  exact matchNumAfter_render ip fr _ hip hipd hfrd

theorem matchNumAfter_seg6 (ip fr R : List Char)
    (hip : ip ≠ []) (hipd : ∀ c ∈ ip, isDigitCh c = true)
    (hfrd : ∀ c ∈ fr, isDigitCh c = true) :
    matchNumAfter (seg3 ++ (decRender ip fr ++ (seg6 ++ R))) =
      some (decRender ip fr) := by
  have h : seg3 ++ (decRender ip fr ++ (seg6 ++ R)) =
      ' ' :: '$' :: (decRender ip fr ++ '\n' :: R) := by
    simp [seg3, seg6]
  rw [h]
  exact matchNumAfter_render ip fr _ hip hipd hfrd

theorem matchNumAfter_seg10 (ip fr : List Char)
    (hip : ip ≠ []) (hipd : ∀ c ∈ ip, isDigitCh c = true)
    (hfrd : ∀ c ∈ fr, isDigitCh c = true) :
    matchNumAfter (seg3 ++ (decRender ip fr ++ seg10)) =
      some (decRender ip fr) := by
  have h : seg3 ++ (decRender ip fr ++ seg10) =
      ' ' :: '$' :: (decRender ip fr ++ '\n' ::
        "⏳ **Timeline:** Short-term (1-7 days)".data) := by
    simp [seg3, seg10]
  rw [h]
  exact matchNumAfter_render ip fr _ hip hipd hfrd

theorem scanToken_build (tok e t1 t2 s : List Char)
    (htok : tok ≠ []) (htokU : ∀ c ∈ tok, isUpperCh c = true) :
    scanLabelToken tokenLabel (buildSignalMessage tok e t1 t2 s) = some tok := by
  unfold scanLabelToken buildSignalMessage
  simp only [List.append_assoc]
  rw [scanWith_skipC matchTokenAfter tokenLabel seg0 _ (by decide)]
  exact scanWith_here matchTokenAfter tokenLabel _ tok (by decide)
    (matchTokenAfter_canon tok _ htok htokU)

theorem scanEntry_build (tok t1 t2 s ipE frE : List Char)
    (htokU : ∀ c ∈ tok, isUpperCh c = true)
    (hipE : ipE ≠ []) (hipEd : ∀ c ∈ ipE, isDigitCh c = true)
    (hfrEd : ∀ c ∈ frE, isDigitCh c = true) :
    scanLabelNum entryLabel
      (buildSignalMessage tok (decRender ipE frE) t1 t2 s) =
      some (decRender ipE frE) := by
  unfold scanLabelNum buildSignalMessage
  simp only [List.append_assoc]
  rw [scanWith_skipC matchNumAfter entryLabel seg0 _ (by decide),
    scanWith_skipC matchNumAfter entryLabel tokenLabel _ (by decide),
    scanWith_skipC matchNumAfter entryLabel seg1 _ (by decide)]
  rw [scanWith_skipClass matchNumAfter entryLabel tok _ isUpperCh htokU
    (by decide) (by
      intro k h1 h2 h3
      rw [show entryLabel.length = 14 from by decide] at h2
      interval_cases k <;> exact absurd h3 (by decide))]
  rw [scanWith_skipC matchNumAfter entryLabel seg2 _ (by decide)]
  exact scanWith_here matchNumAfter entryLabel _ _ (by decide)
    (matchNumAfter_seg4 ipE frE _ hipE hipEd hfrEd)

theorem scanSl_build (tok ipE frE ip1 fr1 ip2 fr2 ipS frS : List Char)
    (htokU : ∀ c ∈ tok, isUpperCh c = true)
    (hipEd : ∀ c ∈ ipE, isDigitCh c = true)
    (hfrEd : ∀ c ∈ frE, isDigitCh c = true)
    (hip1d : ∀ c ∈ ip1, isDigitCh c = true)
    (hfr1d : ∀ c ∈ fr1, isDigitCh c = true)
    (hip2d : ∀ c ∈ ip2, isDigitCh c = true)
    (hfr2d : ∀ c ∈ fr2, isDigitCh c = true)
    (hipS : ipS ≠ []) (hipSd : ∀ c ∈ ipS, isDigitCh c = true)
    (hfrSd : ∀ c ∈ frS, isDigitCh c = true) :
    scanLabelNum slLabel
      (buildSignalMessage tok (decRender ipE frE) (decRender ip1 fr1)
        (decRender ip2 fr2) (decRender ipS frS)) =
      some (decRender ipS frS) := by
  have hoverUp : ∀ s' : List Char, ∀ k, 0 < k → k < slLabel.length →
      (slLabel.take k).all isUpperCh = true → compat (slLabel.drop k) s' = false := by
    intro s' k h1 h2 h3
    rw [show slLabel.length = 12 from by decide] at h2
    interval_cases k <;> exact absurd h3 (by decide)
  have hoverNum : ∀ s' : List Char, ∀ k, 0 < k → k < slLabel.length →
      (slLabel.take k).all isNumCh = true → compat (slLabel.drop k) s' = false := by
    intro s' k h1 h2 h3
    rw [show slLabel.length = 12 from by decide] at h2
    interval_cases k <;> exact absurd h3 (by decide)
  unfold scanLabelNum buildSignalMessage
  simp only [List.append_assoc]
  rw [scanWith_skipC matchNumAfter slLabel seg0 _ (by decide),
    scanWith_skipC matchNumAfter slLabel tokenLabel _ (by decide),
    scanWith_skipC matchNumAfter slLabel seg1 _ (by decide)]
  rw [scanWith_skipClass matchNumAfter slLabel tok _ isUpperCh htokU
    (by decide) (hoverUp _)]
  rw [scanWith_skipC matchNumAfter slLabel seg2 _ (by decide),
    scanWith_skipC matchNumAfter slLabel entryLabel _ (by decide),
    scanWith_skipC matchNumAfter slLabel seg3 _ (by decide)]
  rw [scanWith_skipClass matchNumAfter slLabel (decRender ipE frE) _ isNumCh
    (decRender_class ipE frE hipEd hfrEd) (by decide) (hoverNum _)]
  rw [scanWith_skipC matchNumAfter slLabel seg4 _ (by decide),
    scanWith_skipC matchNumAfter slLabel tp1Label _ (by decide),
    scanWith_skipC matchNumAfter slLabel seg3 _ (by decide)]
  rw [scanWith_skipClass matchNumAfter slLabel (decRender ip1 fr1) _ isNumCh
    (decRender_class ip1 fr1 hip1d hfr1d) (by decide) (hoverNum _)]
  rw [scanWith_skipC matchNumAfter slLabel seg6 _ (by decide),
    scanWith_skipC matchNumAfter slLabel tp2Label _ (by decide),
    scanWith_skipC matchNumAfter slLabel seg3 _ (by decide)]
  rw [scanWith_skipClass matchNumAfter slLabel (decRender ip2 fr2) _ isNumCh
    (decRender_class ip2 fr2 hip2d hfr2d) (by decide) (hoverNum _)]
  rw [scanWith_skipC matchNumAfter slLabel seg6 _ (by decide)]
  exact scanWith_here matchNumAfter slLabel _ _ (by decide)
    (matchNumAfter_seg10 ipS frS hipS hipSd hfrSd)

theorem scanTp1_build (tok ipE frE ip1 fr1 t2 s : List Char)
    (htokU : ∀ c ∈ tok, isUpperCh c = true)
    (hipEd : ∀ c ∈ ipE, isDigitCh c = true)
    (hfrEd : ∀ c ∈ frE, isDigitCh c = true)
    (hip1 : ip1 ≠ []) (hip1d : ∀ c ∈ ip1, isDigitCh c = true)
    (hfr1d : ∀ c ∈ fr1, isDigitCh c = true) :
    scanLabelNum tp1Label
      (buildSignalMessage tok (decRender ipE frE) (decRender ip1 fr1) t2 s) =
      some (decRender ip1 fr1) := by
  unfold scanLabelNum buildSignalMessage
  simp only [List.append_assoc]
  rw [scanWith_skipC matchNumAfter tp1Label seg0 _ (by decide),
    scanWith_skipC matchNumAfter tp1Label tokenLabel _ (by decide),
    scanWith_skipC matchNumAfter tp1Label seg1 _ (by decide)]
  rw [scanWith_skipClass matchNumAfter tp1Label tok _ isUpperCh htokU
    (by decide) (by
      intro k h1 h2 h3
      rw [show tp1Label.length = 4 from by decide] at h2
      interval_cases k
      · exact compat_false_append _ seg2 _ (by decide)
      · exact compat_false_append _ seg2 _ (by decide)
      · exact absurd h3 (by decide))]
  rw [scanWith_skipC matchNumAfter tp1Label seg2 _ (by decide),
    scanWith_skipC matchNumAfter tp1Label entryLabel _ (by decide),
    scanWith_skipC matchNumAfter tp1Label seg3 _ (by decide)]
  rw [scanWith_skipClass matchNumAfter tp1Label (decRender ipE frE) _ isNumCh
    (decRender_class ipE frE hipEd hfrEd) (by decide) (by
      intro k h1 h2 h3
      rw [show tp1Label.length = 4 from by decide] at h2
      interval_cases k <;> exact absurd h3 (by decide))]
  rw [scanWith_skipC matchNumAfter tp1Label seg4 _ (by decide)]
  exact scanWith_here matchNumAfter tp1Label _ _ (by decide)
    (matchNumAfter_seg6 ip1 fr1 _ hip1 hip1d hfr1d)

theorem scanTp2_build (tok ipE frE ip1 fr1 ip2 fr2 s : List Char)
    (htokU : ∀ c ∈ tok, isUpperCh c = true)
    (hipEd : ∀ c ∈ ipE, isDigitCh c = true)
    (hfrEd : ∀ c ∈ frE, isDigitCh c = true)
    (hip1d : ∀ c ∈ ip1, isDigitCh c = true)
    (hfr1d : ∀ c ∈ fr1, isDigitCh c = true)
    (hip2 : ip2 ≠ []) (hip2d : ∀ c ∈ ip2, isDigitCh c = true)
    (hfr2d : ∀ c ∈ fr2, isDigitCh c = true) :
    scanLabelNum tp2Label
      (buildSignalMessage tok (decRender ipE frE) (decRender ip1 fr1)
        (decRender ip2 fr2) s) =
      some (decRender ip2 fr2) := by
  have hoverNum : ∀ s' : List Char, ∀ k, 0 < k → k < tp2Label.length →
      (tp2Label.take k).all isNumCh = true → compat (tp2Label.drop k) s' = false := by
    intro s' k h1 h2 h3
    rw [show tp2Label.length = 4 from by decide] at h2
    interval_cases k <;> exact absurd h3 (by decide)
  unfold scanLabelNum buildSignalMessage
  simp only [List.append_assoc]
  rw [scanWith_skipC matchNumAfter tp2Label seg0 _ (by decide),
    scanWith_skipC matchNumAfter tp2Label tokenLabel _ (by decide),
    scanWith_skipC matchNumAfter tp2Label seg1 _ (by decide)]
  rw [scanWith_skipClass matchNumAfter tp2Label tok _ isUpperCh htokU
    (by decide) (by
      intro k h1 h2 h3
      rw [show tp2Label.length = 4 from by decide] at h2
      interval_cases k
      · exact compat_false_append _ seg2 _ (by decide)
      · exact compat_false_append _ seg2 _ (by decide)
      · exact absurd h3 (by decide))]
  rw [scanWith_skipC matchNumAfter tp2Label seg2 _ (by decide),
    scanWith_skipC matchNumAfter tp2Label entryLabel _ (by decide),
    scanWith_skipC matchNumAfter tp2Label seg3 _ (by decide)]
  rw [scanWith_skipClass matchNumAfter tp2Label (decRender ipE frE) _ isNumCh
    (decRender_class ipE frE hipEd hfrEd) (by decide) (hoverNum _)]
  rw [scanWith_skipC matchNumAfter tp2Label seg4 _ (by decide),
    scanWith_skipC matchNumAfter tp2Label tp1Label _ (by decide),
    scanWith_skipC matchNumAfter tp2Label seg3 _ (by decide)]
  rw [scanWith_skipClass matchNumAfter tp2Label (decRender ip1 fr1) _ isNumCh
    (decRender_class ip1 fr1 hip1d hfr1d) (by decide) (hoverNum _)]
  rw [scanWith_skipC matchNumAfter tp2Label seg6 _ (by decide)]
  exact scanWith_here matchNumAfter tp2Label _ _ (by decide)
    (matchNumAfter_seg6 ip2 fr2 _ hip2 hip2d hfr2d)

theorem decValue_1137 : decValue ['1', '1'] ['3', '7'] = (11.37 : ℚ) := by
  unfold decValue
  rw [show digitsToNat ['1', '1'] = 11 from by decide,
    show digitsToNat ['3', '7'] = 37 from by decide,
    show (['3', '7'] : List Char).length = 2 from rfl]
  norm_num

theorem decValue_837 : decValue ['8'] ['3', '7'] = (8.37 : ℚ) := by
  unfold decValue
  rw [show digitsToNat ['8'] = 8 from by decide,
    show digitsToNat ['3', '7'] = 37 from by decide,
    show (['3', '7'] : List Char).length = 2 from rfl]
  norm_num

theorem decValue_937 : decValue ['9'] ['3', '7'] = (9.37 : ℚ) := by
  unfold decValue
  rw [show digitsToNat ['9'] = 9 from by decide,
    show digitsToNat ['3', '7'] = 37 from by decide,
    show (['3', '7'] : List Char).length = 2 from rfl]
  norm_num

/-! ### Claim C1 — the signal parser -/

/-- C1 (amended): the parser, applied to a message constructed from given
{token, tp1, tp2, sl, entryPrice} values at the parser's exact label markers,
recovers exactly those values; markup noise elsewhere in the message (bold
phrases, emoji) is tolerated because matches are marker-anchored — but bold
markers wrapping a label word itself defeat that label's match (see the
counterexample).  For every input text, fields whose label is absent yield
null, and the parser is a total function (never throws).  Parsing scenario
A's message text as written recovers {tp1 = 11.37, sl = 8.37,
entryPrice = 9.37}. -/
theorem c1_parser_roundtrip
    (tok ipE frE ip1 fr1 ip2 fr2 ipS frS : List Char)
    (htok : tok ≠ []) (htokU : ∀ c ∈ tok, isUpperCh c = true)
    (hipE : ipE ≠ []) (hipEd : ∀ c ∈ ipE, isDigitCh c = true)
    (hfrEd : ∀ c ∈ frE, isDigitCh c = true)
    (hip1 : ip1 ≠ []) (hip1d : ∀ c ∈ ip1, isDigitCh c = true)
    (hfr1d : ∀ c ∈ fr1, isDigitCh c = true)
    (hip2 : ip2 ≠ []) (hip2d : ∀ c ∈ ip2, isDigitCh c = true)
    (hfr2d : ∀ c ∈ fr2, isDigitCh c = true)
    (hipS : ipS ≠ []) (hipSd : ∀ c ∈ ipS, isDigitCh c = true)
    (hfrSd : ∀ c ∈ frS, isDigitCh c = true) :
    parseSignalMessage (buildSignalMessage tok (decRender ipE frE)
        (decRender ip1 fr1) (decRender ip2 fr2) (decRender ipS frS)) =
      { token := some tok
        tp1 := some (decValue ip1 fr1)
        tp2 := some (decValue ip2 fr2)
        sl := some (decValue ipS frS)
        entryPrice := some (decValue ipE frE) } ∧
    (∀ text : List Char,
      (¬ occursIn tokenLabel text → (parseSignalMessage text).token = none) ∧
      (¬ occursIn tp1Label text → (parseSignalMessage text).tp1 = none) ∧
      (¬ occursIn tp2Label text → (parseSignalMessage text).tp2 = none) ∧
      (¬ occursIn slLabel text → (parseSignalMessage text).sl = none) ∧
      (¬ occursIn entryLabel text → (parseSignalMessage text).entryPrice = none)) ∧
    ((parseSignalMessage scenarioAText).tp1 = some (11.37 : ℚ) ∧
     (parseSignalMessage scenarioAText).sl = some (8.37 : ℚ) ∧
     (parseSignalMessage scenarioAText).entryPrice = some (9.37 : ℚ)) := by
  refine ⟨?_, ?_, ?_, ?_, ?_⟩
  · have h1 := scanToken_build tok (decRender ipE frE) (decRender ip1 fr1)
      (decRender ip2 fr2) (decRender ipS frS) htok htokU
    have h2 := scanEntry_build tok (decRender ip1 fr1) (decRender ip2 fr2)
      (decRender ipS frS) ipE frE htokU hipE hipEd hfrEd
    have h3 := scanTp1_build tok ipE frE ip1 fr1 (decRender ip2 fr2)
      (decRender ipS frS) htokU hipEd hfrEd hip1 hip1d hfr1d
    have h4 := scanTp2_build tok ipE frE ip1 fr1 ip2 fr2 (decRender ipS frS)
      htokU hipEd hfrEd hip1d hfr1d hip2 hip2d hfr2d
    have h5 := scanSl_build tok ipE frE ip1 fr1 ip2 fr2 ipS frS htokU hipEd
      hfrEd hip1d hfr1d hip2d hfr2d hipS hipSd hfrSd
    simp only [parseSignalMessage, h1, h2, h3, h4, h5, Option.map]
    rw [parseFloatQ_decRender ipE frE hipEd hfrEd,
      parseFloatQ_decRender ip1 fr1 hip1d hfr1d,
      parseFloatQ_decRender ip2 fr2 hip2d hfr2d,
      parseFloatQ_decRender ipS frS hipSd hfrSd]
  · intro text
    refine ⟨?_, ?_, ?_, ?_, ?_⟩ <;> intro h <;>
      simp only [parseSignalMessage] <;>
      [rw [show scanLabelToken tokenLabel text = none from
          scanWith_none matchTokenAfter tokenLabel text h];
       rw [show scanLabelNum tp1Label text = none from
          scanWith_none matchNumAfter tp1Label text h];
       rw [show scanLabelNum tp2Label text = none from
          scanWith_none matchNumAfter tp2Label text h];
       rw [show scanLabelNum slLabel text = none from
          scanWith_none matchNumAfter slLabel text h];
       rw [show scanLabelNum entryLabel text = none from
          scanWith_none matchNumAfter entryLabel text h]] <;>
      rfl
  · show (scanLabelNum tp1Label scenarioAText).map parseFloatQ = some (11.37 : ℚ)
    rw [show scanLabelNum tp1Label scenarioAText =
        some (decRender ['1', '1'] ['3', '7']) from by decide]
    simp only [Option.map]
    rw [parseFloatQ_decRender ['1', '1'] ['3', '7']
        (by decide) (by decide), decValue_1137]
  · show (scanLabelNum slLabel scenarioAText).map parseFloatQ = some (8.37 : ℚ)
    rw [show scanLabelNum slLabel scenarioAText =
        some (decRender ['8'] ['3', '7']) from by decide]
    simp only [Option.map]
    rw [parseFloatQ_decRender ['8'] ['3', '7']
        (by decide) (by decide), decValue_837]
  · show (scanLabelNum entryLabel scenarioAText).map parseFloatQ = some (9.37 : ℚ)
    rw [show scanLabelNum entryLabel scenarioAText =
        some (decRender ['9'] ['3', '7']) from by decide]
    simp only [Option.map]
    rw [parseFloatQ_decRender ['9'] ['3', '7']
        (by decide) (by decide), decValue_937]

/-- C1 witness: the round trip at UNI / 9.37 / 11.37 / 13.37 / 8.37. -/
theorem c1_witness :
    parseSignalMessage (buildSignalMessage "UNI".data
        (decRender ['9'] ['3', '7']) (decRender ['1', '1'] ['3', '7'])
        (decRender ['1', '3'] ['3', '7']) (decRender ['8'] ['3', '7'])) =
      { token := some "UNI".data
        tp1 := some (decValue ['1', '1'] ['3', '7'])
        tp2 := some (decValue ['1', '3'] ['3', '7'])
        sl := some (decValue ['8'] ['3', '7'])
        entryPrice := some (decValue ['9'] ['3', '7']) } :=
  (c1_parser_roundtrip "UNI".data ['9'] ['3', '7'] ['1', '1'] ['3', '7']
    ['1', '3'] ['3', '7'] ['8'] ['3', '7'] (by decide) (by decide) (by decide)
    (by decide) (by decide) (by decide) (by decide) (by decide) (by decide)
    (by decide) (by decide) (by decide) (by decide) (by decide)).1

/-- C1 counterexample: the repository's own test-signal message carries its
stop-loss, entry-price and token values behind bold-wrapped labels
(`🛑 **Stop Loss**: $8.37`, …); the parser does not tolerate the bold markers
around the label word and yields null for those fields instead of the values
present in the message (while the unbolded `TP1:` label still parses). -/
theorem c1_counterexample :
    occursIn "🛑 **Stop Loss**: $8.37".data boldTestSignalMessage ∧
    occursIn "💰 **Entry Price**: $9.37".data boldTestSignalMessage ∧
    (parseSignalMessage boldTestSignalMessage).sl = none ∧
    (parseSignalMessage boldTestSignalMessage).entryPrice = none ∧
    (parseSignalMessage boldTestSignalMessage).token = none ∧
    (parseSignalMessage boldTestSignalMessage).tp1 = some (11.37 : ℚ) := by
  refine ⟨(containsSub_eq_true_iff _ _).mp (by decide),
    (containsSub_eq_true_iff _ _).mp (by decide), ?_, ?_, ?_, ?_⟩
  · show (scanLabelNum slLabel boldTestSignalMessage).map parseFloatQ = none
    rw [show scanLabelNum slLabel boldTestSignalMessage = none from by decide]
    rfl
  · show (scanLabelNum entryLabel boldTestSignalMessage).map parseFloatQ = none
    rw [show scanLabelNum entryLabel boldTestSignalMessage = none from by decide]
    rfl
  · show scanLabelToken tokenLabel boldTestSignalMessage = none
    decide
  · show (scanLabelNum tp1Label boldTestSignalMessage).map parseFloatQ =
      some (11.37 : ℚ)
    rw [show scanLabelNum tp1Label boldTestSignalMessage =
        some (decRender ['1', '1'] ['3', '7']) from by decide]
    simp only [Option.map]
    rw [parseFloatQ_decRender ['1', '1'] ['3', '7']
        (by decide) (by decide), decValue_1137]

/-! ### Orchestrator trace lemmas -/

theorem handle_success_trace (env : Env) (now : ℕ) (userData : UserData)
    (u : UserDoc) (sf : SafeDoc) (tw sa : List Char) (r : ApiResponse)
    (hc : env.connectOk = true)
    (hu : env.userDoc = some u) (htw : u.twitterId = some tw) (htw0 : tw ≠ [])
    (hs : env.safeDoc = some sf) (hsa : sf.arbitrumAddress = some sa)
    (hsa0 : sa ≠ []) (hr : env.rpcResult = .ok r) :
    handleSimulateTradeRequest env now userData =
      ([Eff.dbFindUser userData.username, Eff.dbFindSafe tw,
        Eff.rpcPost (mkApiBody now (parseSignalMessage userData.messageText) tw sa),
        Eff.dbInsert (mkSimulationRecord now userData
          (parseSignalMessage userData.messageText) r tw sa)],
       if env.insertOk then .ok r else .error .insertFail) := by
  have hfetch : fetchUserData env userData.username =
      ([Eff.dbFindUser userData.username, Eff.dbFindSafe tw], .ok (tw, sa)) := by
    simp [fetchUserData, hc, hu, hs, htw, hsa, optTruthyStr, htw0, hsa0]
  simp [handleSimulateTradeRequest, hc, hfetch, simulateTrade, hr]

/-! ### Claim C2 — single insert, rethrown persistence failure -/

/-- C2: whenever the orchestrator's identity lookups succeed and the remote
RPC returns a response of any shape, the effect trace of
`handleSimulateTradeRequest` contains exactly one document-store insert, whose
record combines the interaction event, the parsed signal, the resolved
identity/account and the raw RPC response; and an insert failure is rethrown
to the caller, not swallowed. -/
theorem c2_single_insert_and_rethrow (env : Env) (now : ℕ) (userData : UserData)
    (u : UserDoc) (sf : SafeDoc) (tw sa : List Char) (r : ApiResponse)
    (hc : env.connectOk = true)
    (hu : env.userDoc = some u) (htw : u.twitterId = some tw) (htw0 : tw ≠ [])
    (hs : env.safeDoc = some sf) (hsa : sf.arbitrumAddress = some sa)
    (hsa0 : sa ≠ []) (hr : env.rpcResult = .ok r) :
    (handleSimulateTradeRequest env now userData).1.countP
        (fun e => isInsertEff e) = 1 ∧
    (handleSimulateTradeRequest env now userData).1 =
      [Eff.dbFindUser userData.username, Eff.dbFindSafe tw,
       Eff.rpcPost (mkApiBody now (parseSignalMessage userData.messageText) tw sa),
       Eff.dbInsert (mkSimulationRecord now userData
         (parseSignalMessage userData.messageText) r tw sa)] ∧
    (env.insertOk = false →
      (handleSimulateTradeRequest env now userData).2 = .error .insertFail) ∧
    (env.insertOk = true →
      (handleSimulateTradeRequest env now userData).2 = .ok r) := by
  have h := handle_success_trace env now userData u sf tw sa r hc hu htw htw0
    hs hsa hsa0 hr
  refine ⟨?_, ?_, ?_, ?_⟩
  · rw [h]
    simp [List.countP_cons, isInsertEff]
  · rw [h]
  · intro hins
    rw [h]
    simp [hins]
  · intro hins
    rw [h]
    simp [hins]

/-- C2 witness: a concrete run whose RPC answers with a `failed` status shape
still produces exactly one insert, and the insert failure surfaces. -/
theorem c2_witness :
    (handleSimulateTradeRequest sampleEnv 5 sampleUserData).1.countP
        (fun e => isInsertEff e) = 1 ∧
    (handleSimulateTradeRequest sampleEnv 5 sampleUserData).2 =
      .error .insertFail :=
  ⟨(c2_single_insert_and_rethrow sampleEnv 5 sampleUserData sampleUserDoc
      sampleSafeDoc "tw1".data "0xabc".data sampleResponse rfl rfl rfl
      (by decide) rfl rfl (by decide) rfl).1,
   (c2_single_insert_and_rethrow sampleEnv 5 sampleUserData sampleUserDoc
      sampleSafeDoc "tw1".data "0xabc".data sampleResponse rfl rfl rfl
      (by decide) rfl rfl (by decide) rfl).2.2.1 rfl⟩

/-! ### Claim C8 — no idempotence, no replay guard -/

/-- C8: running the orchestrator twice on the same interaction event performs
two RPC calls and two inserts — the function consults no state that could
deduplicate a replayed correlation token. -/
theorem c8_not_idempotent (env : Env) (now : ℕ) (userData : UserData)
    (u : UserDoc) (sf : SafeDoc) (tw sa : List Char) (r : ApiResponse)
    (hc : env.connectOk = true)
    (hu : env.userDoc = some u) (htw : u.twitterId = some tw) (htw0 : tw ≠ [])
    (hs : env.safeDoc = some sf) (hsa : sf.arbitrumAddress = some sa)
    (hsa0 : sa ≠ []) (hr : env.rpcResult = .ok r) :
    (handleSimulateTradeTwice env now userData).countP
        (fun e => isInsertEff e) = 2 ∧
    (handleSimulateTradeTwice env now userData).countP
        (fun e => isRpcEff e) = 2 := by
  have h := handle_success_trace env now userData u sf tw sa r hc hu htw htw0
    hs hsa hsa0 hr
  unfold handleSimulateTradeTwice
  rw [h]
  constructor <;> simp [List.countP_append, List.countP_cons, isInsertEff, isRpcEff]

/-- C8 witness. -/
theorem c8_witness :
    (handleSimulateTradeTwice sampleEnv 5 sampleUserData).countP
        (fun e => isInsertEff e) = 2 :=
  (c8_not_idempotent sampleEnv 5 sampleUserData sampleUserDoc sampleSafeDoc
    "tw1".data "0xabc".data sampleResponse rfl rfl rfl (by decide) rfl rfl
    (by decide) rfl).1

/-! ### Effect-shape lemmas for the orchestrator and handler -/

theorem fetchUserData_effs (env : Env) (tu : List Char) :
    ∀ e ∈ (fetchUserData env tu).1,
      (∃ x, e = Eff.dbFindUser x) ∨ (∃ x, e = Eff.dbFindSafe x) := by
  intro e he
  unfold fetchUserData at he
  cases hc : env.connectOk with
  | false => simp [hc] at he
  | true =>
    rcases hu : env.userDoc with _ | u <;> simp only [hc, hu] at he
    · simp at he
      exact Or.inl ⟨tu, he⟩
    · by_cases ht : optTruthyStr u.twitterId <;> simp only [ht] at he
      · rcases hs : env.safeDoc with _ | sf <;> simp only [hs] at he <;>
          [skip; by_cases ha : optTruthyStr sf.arbitrumAddress] <;>
          simp_all <;>
          rcases he with rfl | rfl
        · exact Or.inl ⟨tu, rfl⟩
        · exact Or.inr ⟨_, rfl⟩
        · exact Or.inl ⟨tu, rfl⟩
        · exact Or.inr ⟨_, rfl⟩
        · exact Or.inl ⟨tu, rfl⟩
        · exact Or.inr ⟨_, rfl⟩
      · simp at he
        exact Or.inl ⟨tu, he⟩

theorem handle_effs (env : Env) (now : ℕ) (userData : UserData) :
    ∀ e ∈ (handleSimulateTradeRequest env now userData).1,
      (∃ x, e = Eff.dbFindUser x) ∨ (∃ x, e = Eff.dbFindSafe x) ∨
      (∃ b, e = Eff.rpcPost b) ∨
      (∃ tw sa r, e = Eff.dbInsert (mkSimulationRecord now userData
          (parseSignalMessage userData.messageText) r tw sa)) := by
  intro e he
  unfold handleSimulateTradeRequest at he
  cases hc : env.connectOk with
  | false => simp [hc] at he
  | true =>
    simp only [hc, Bool.not_true, Bool.false_eq_true, if_false] at he
    rcases hf : (fetchUserData env userData.username).2 with er | ⟨tw, sa⟩ <;>
      simp only [hf] at he
    · rcases fetchUserData_effs env userData.username e he with ⟨x, rfl⟩ | ⟨x, rfl⟩
      · exact Or.inl ⟨x, rfl⟩
      · exact Or.inr (Or.inl ⟨x, rfl⟩)
    · rcases hr : env.rpcResult with er | r <;>
        simp only [simulateTrade, hr, List.append_assoc, List.mem_append,
          List.mem_singleton, List.mem_cons, List.not_mem_nil, or_false] at he
      · rcases he with he | rfl
        · rcases fetchUserData_effs env userData.username e he with ⟨x, rfl⟩ | ⟨x, rfl⟩
          · exact Or.inl ⟨x, rfl⟩
          · exact Or.inr (Or.inl ⟨x, rfl⟩)
        · exact Or.inr (Or.inr (Or.inl ⟨_, rfl⟩))
      · rcases he with he | rfl | rfl
        · rcases fetchUserData_effs env userData.username e he with ⟨x, rfl⟩ | ⟨x, rfl⟩
          · exact Or.inl ⟨x, rfl⟩
          · exact Or.inr (Or.inl ⟨x, rfl⟩)
        · exact Or.inr (Or.inr (Or.inl ⟨_, rfl⟩))
        · exact Or.inr (Or.inr (Or.inr ⟨tw, sa, r, rfl⟩))

theorem mem_split {A H B : List Eff} {e : Eff} (he : e ∈ A ++ (H ++ B))
    (hA : ∀ x ∈ A, isWorkflowEff x = false)
    (hB : ∀ x ∈ B, isWorkflowEff x = false) :
    e ∈ H ∨ isWorkflowEff e = false := by
  rcases List.mem_append.mp he with h1 | h2
  · exact Or.inr (hA e h1)
  · rcases List.mem_append.mp h2 with h3 | h4
    · exact Or.inl h3
    · exact Or.inr (hB e h4)

/-- Every effect of the callback handler is either an effect of the
orchestrator run or a non-workflow (transport / timer) effect. -/
theorem callbackHandler_mem (env : Env) (now : ℕ) (userData : UserData)
    (e : Eff) (he : e ∈ callbackHandler env now userData) :
    e ∈ (handleSimulateTradeRequest env now userData).1 ∨
      isWorkflowEff e = false := by
  unfold callbackHandler at he
  cases hack : env.ackOk with
  | false =>
    simp only [hack] at he
    simp at he
    rcases he with rfl | rfl | rfl <;> exact Or.inr rfl
  | true =>
    cases hrep : env.replyOk with
    | false =>
      simp only [hack, hrep] at he
      simp at he
      rcases he with rfl | rfl | rfl | rfl <;> exact Or.inr rfl
    | true =>
      simp only [hack, hrep, Bool.not_true, Bool.false_eq_true, if_false,
        if_true] at he
      have hite : ∀ x ∈ (if env.editErrOk = true then
            [Eff.editMessage errorReplyText]
          else [Eff.editMessage errorReplyText, Eff.reply errorReplyText]),
          isWorkflowEff x = false := by
        split <;> decide
      rcases hres : (handleSimulateTradeRequest env now userData).2 with er | r <;>
        simp only [hres] at he
      · simp only [List.append_assoc] at he
        refine mem_split he (by decide) ?_
        intro x hx
        rcases List.mem_append.mp hx with h1 | h2
        · simp at h1
          rcases h1 with rfl | rfl <;> rfl
        · exact hite x h2
      · cases hed : env.editOk with
        | true =>
          simp only [hed, if_true, List.append_assoc] at he
          refine mem_split he (by decide) ?_
          intro x hx
          simp at hx
          rcases hx with rfl | rfl <;> rfl
        | false =>
          simp only [hed, Bool.false_eq_true, if_false, List.append_assoc] at he
          refine mem_split he (by decide) ?_
          intro x hx
          rcases List.mem_append.mp hx with h1 | h2
          · simp at h1
            rcases h1 with rfl | rfl | rfl | rfl <;> rfl
          · exact hite x h2

/-! ### Claim C10 — status is always `initiated` -/

/-- C10: every record the core ever hands to the document-store insert has
status `initiated`; the handler's trace contains no record update at all, so
no record is ever moved to `success` or `failed`, whatever the RPC response
embedded next to it says. -/
theorem c10_status_always_initiated (env : Env) (now : ℕ) (userData : UserData) :
    (∀ r : SimulationRecord,
        Eff.dbInsert r ∈ callbackHandler env now userData →
          r.status = "initiated".data) ∧
    (∀ r : SimulationRecord,
        Eff.dbUpdate r ∉ callbackHandler env now userData) := by
  constructor
  · intro r hr
    rcases callbackHandler_mem env now userData _ hr with hmem | hfalse
    · rcases handle_effs env now userData _ hmem with
        ⟨x, hx⟩ | ⟨x, hx⟩ | ⟨b, hx⟩ | ⟨tw, sa, rr, hx⟩
      · exact absurd hx (by simp)
      · exact absurd hx (by simp)
      · exact absurd hx (by simp)
      · cases Eff.dbInsert.inj hx
        rfl
    · simp [isWorkflowEff] at hfalse
  · intro r hr
    rcases callbackHandler_mem env now userData _ hr with hmem | hfalse
    · rcases handle_effs env now userData _ hmem with
        ⟨x, hx⟩ | ⟨x, hx⟩ | ⟨b, hx⟩ | ⟨tw, sa, rr, hx⟩ <;> exact absurd hx (by simp)
    · simp [isWorkflowEff] at hfalse

/-- C10 witness: the record inserted in a concrete run has status
`initiated`, even though the embedded RPC response says `failed`. -/
theorem c10_witness :
    (mkSimulationRecord 5 sampleUserData
        (parseSignalMessage sampleUserData.messageText) sampleResponse
        "tw1".data "0xabc".data).status = "initiated".data :=
  (c10_status_always_initiated sampleEnv 5 sampleUserData).1 _ (by decide)

/-! ### Claim C9 — acknowledgment and processing message precede the workflow -/

/-- C9: in every handler run that performs any remote-workflow call (identity
lookup, RPC or persistence), the transport acknowledgment and the initial
processing message are the first two effects — both happen before any
workflow effect. -/
theorem c9_ack_before_workflow (env : Env) (now : ℕ) (userData : UserData)
    (h : ∃ e ∈ callbackHandler env now userData, isWorkflowEff e = true) :
    (callbackHandler env now userData).take 2 =
      [Eff.answerCbQuery processingAckText, Eff.reply processingText] ∧
    ∀ e ∈ (callbackHandler env now userData).take 2, isWorkflowEff e = false := by
  obtain ⟨e0, he0, hw0⟩ := h
  have hmain : env.ackOk = true ∧ env.replyOk = true := by
    by_cases hack : env.ackOk
    · by_cases hrep : env.replyOk
      · exact ⟨hack, hrep⟩
      · rw [Bool.not_eq_true] at hrep
        unfold callbackHandler at he0
        simp [hack, hrep] at he0
        rcases he0 with rfl | rfl | rfl | rfl <;> simp [isWorkflowEff] at hw0
    · rw [Bool.not_eq_true] at hack
      unfold callbackHandler at he0
      simp [hack] at he0
      rcases he0 with rfl | rfl | rfl <;> simp [isWorkflowEff] at hw0
  obtain ⟨hack, hrep⟩ := hmain
  have htake : (callbackHandler env now userData).take 2 =
      [Eff.answerCbQuery processingAckText, Eff.reply processingText] := by
    unfold callbackHandler
    simp only [hack, hrep, Bool.not_true, Bool.false_eq_true, if_false]
    rcases (handleSimulateTradeRequest env now userData).2 with er | r <;>
      simp [List.take]
    cases env.editOk <;> simp [List.take]
  refine ⟨htake, ?_⟩
  rw [htake]
  intro e he
  rcases List.mem_cons.mp he with rfl | he
  · rfl
  · rcases List.mem_singleton.mp he with rfl
    rfl

/-- C9 witness: a run in which the workflow executes. -/
theorem c9_witness :
    (callbackHandler sampleEnv 5 sampleUserData).take 2 =
      [Eff.answerCbQuery processingAckText, Eff.reply processingText] :=
  (c9_ack_before_workflow sampleEnv 5 sampleUserData (by decide)).1

/-! ### Claim C4 — the action control and the correlation token -/

theorem isDigitCh_digitChar (m : ℕ) (hm : m < 10) :
    isDigitCh (digitChar m) = true := by
  interval_cases m <;> decide

theorem natDigits_all_digit (n : ℕ) : ∀ c ∈ natDigits n, isDigitCh c = true := by
  induction n using Nat.strong_induction_on with
  | _ n ih =>
    rw [natDigits]
    split
    · next h =>
      intro c hc
      simp at hc
      subst hc
      exact isDigitCh_digitChar n h
    · next h =>
      intro c hc
      rcases List.mem_append.mp hc with h1 | h1
      · exact ih (n / 10) (Nat.div_lt_self (by omega) (by omega)) c h1
      · simp at h1
        subst h1
        exact isDigitCh_digitChar (n % 10) (Nat.mod_lt _ (by omega))

theorem natDigits_ne_nil (n : ℕ) : natDigits n ≠ [] := by
  rw [natDigits]
  split <;> simp

theorem mkCallbackData_inj_username (now : ℕ) (x y : List Char)
    (h : mkCallbackData now x = mkCallbackData now y) : x = y := by
  unfold mkCallbackData at h
  exact (List.cons.inj (List.append_cancel_left h)).2

/-- C4: for every actionable message whose chat id resolves, the dispatcher
sends exactly one message carrying exactly one action control, whose callback
payload is the correlation token `simulate_trade_<now>_<cleanUsername>` —
of shape `simulate_trade_<digits>_<username>` — and tokens minted in the same
millisecond for different normalized usernames are distinct. -/
theorem c4_dispatcher_action_control (env : Env) (now : ℕ)
    (username message : List Char) (u : UserDoc) (cid : ℤ)
    (hc : env.connectOk = true) (hu : env.userDoc = some u)
    (hcid : u.chatId = some cid) (hcid0 : cid ≠ 0)
    (hb : isBullishSignal message = true) :
    (sendMessage env now username message).1 =
      [Eff.dbFindUser (cleanUsername username),
       Eff.sendWithKeyboard cid message
         ⟨[[⟨simulateButtonText, mkCallbackData now (cleanUsername username)⟩]]⟩] ∧
    mkCallbackData now (cleanUsername username) =
      "simulate_trade_".data ++ natDigits now ++ '_' :: cleanUsername username ∧
    natDigits now ≠ [] ∧
    (∀ c ∈ natDigits now, isDigitCh c = true) ∧
    (∀ n : ℕ, ∀ u1 u2 : List Char, cleanUsername u1 ≠ cleanUsername u2 →
      mkCallbackData n (cleanUsername u1) ≠ mkCallbackData n (cleanUsername u2)) := by
  refine ⟨?_, rfl, natDigits_ne_nil now, natDigits_all_digit now, ?_⟩
  · have hfind : findChatIdByUsername env (cleanUsername username) =
        ([Eff.dbFindUser (cleanUsername username)], .ok cid) := by
      simp [findChatIdByUsername, hc, hu, hcid, optTruthyInt, hcid0]
    simp [sendMessage, hfind, hb]
  · intro n u1 u2 hne h
    exact hne (mkCallbackData_inj_username n _ _ h)

/-- C4 witness: a concrete bullish dispatch. -/
theorem c4_witness :
    (sendMessage sampleEnv 5 "@alice".data bullishMarker).1 =
      [Eff.dbFindUser "alice".data,
       Eff.sendWithKeyboard 99 bullishMarker
         ⟨[[⟨simulateButtonText, mkCallbackData 5 "alice".data⟩]]⟩] :=
  (c4_dispatcher_action_control sampleEnv 5 "@alice".data bullishMarker
    sampleUserDoc 99 rfl rfl rfl (by decide) (by decide)).1

/-! ### Claim C7 — failed lookup aborts before any transport call -/

/-- C7: when the user-directory lookup finds no record or no chat id, the
dispatcher fails with the NotFound error and its trace contains no
chat-transport effect at all — no outbound message, no default chat id. -/
theorem c7_fails_closed (env : Env) (now : ℕ) (username message : List Char)
    (hc : env.connectOk = true)
    (h : env.userDoc = none ∨ ∃ u, env.userDoc = some u ∧ u.chatId = none) :
    (sendMessage env now username message).2 = .error .notFoundChatId ∧
    ∀ e ∈ (sendMessage env now username message).1, isTransportEff e = false := by
  have hfind : findChatIdByUsername env (cleanUsername username) =
      ([Eff.dbFindUser (cleanUsername username)], .error .notFoundChatId) := by
    rcases h with h | ⟨u, hu, hcid⟩
    · simp [findChatIdByUsername, hc, h]
    · simp [findChatIdByUsername, hc, hu, hcid, optTruthyInt]
  constructor
  · simp [sendMessage, hfind]
  · intro e he
    simp [sendMessage, hfind] at he
    subst he
    rfl

/-- C7 witness: lookup of an unknown user. -/
theorem c7_witness :
    (sendMessage ⟨true, none, none, Except.ok sampleResponse, true, true, true,
        true, true, true⟩ 5 "unknown_user".data "hello".data).2 =
      .error .notFoundChatId :=
  (c7_fails_closed ⟨true, none, none, Except.ok sampleResponse, true, true,
    true, true, true, true⟩ 5 "unknown_user".data "hello".data rfl
    (Or.inl rfl)).1

/-! ### Claim C5 — username normalization -/

/-- C5 (amended): the normalization `username.replace('@', '')` removes the
first at-sign occurrence wherever it appears: a username without any at-sign
is unchanged, a leading at-sign is stripped, and in general the first at-sign
(leading or not) is deleted. -/
theorem c5_cleanUsername_removes_first_at (u : List Char) :
    ('@' ∉ u → cleanUsername u = u) ∧
    (∀ v, u = '@' :: v → cleanUsername u = v) ∧
    (∀ a b, u = a ++ '@' :: b → '@' ∉ a → cleanUsername u = a ++ b) := by
  refine ⟨?_, ?_, ?_⟩
  · intro h
    induction u with
    | nil => rfl
    | cons c rest ih =>
      have hc : c ≠ '@' := fun hc => h (hc ▸ List.mem_cons_self c rest)
      have hr : '@' ∉ rest := fun hm => h (List.mem_cons_of_mem c hm)
      simp [cleanUsername, hc, ih hr]
  · rintro v rfl
    simp [cleanUsername]
  · rintro a b rfl ha
    induction a with
    | nil => simp [cleanUsername]
    | cons c rest ih =>
      have hc : c ≠ '@' := fun hc => ha (hc ▸ List.mem_cons_self c rest)
      have hr : '@' ∉ rest := fun hm => ha (List.mem_cons_of_mem c hm)
      simp [cleanUsername, hc, ih hr]

/-- C5 witness: a leading at-sign is stripped. -/
theorem c5_witness : cleanUsername "@alice".data = "alice".data :=
  (c5_cleanUsername_removes_first_at "@alice".data).2.1 "alice".data rfl

/-- C5 counterexample: `"ali@ce"` has no leading at-sign, yet normalization
does not leave it unchanged — the non-leading at-sign is removed. -/
theorem c5_counterexample :
    "ali@ce".data.head? ≠ some '@' ∧
      cleanUsername "ali@ce".data ≠ "ali@ce".data := by
  decide

/-! ### Claim C6 — the current-price estimate -/

/-- C6 (amended): the orchestrator's current-price estimate equals the parsed
`entryPrice` whenever it is present and nonzero; otherwise it is the mean
`(tp1 + sl) / 2` when both are present and nonzero; otherwise it is null.
JS truthiness treats a parsed value of `0` as absent.  The estimate is the
`Current Price` field of the RPC body built by `simulateTrade`. -/
theorem c6_currentPrice (sd : SignalData) :
    (∀ e : ℚ, sd.entryPrice = some e → e ≠ 0 → currentPriceOf sd = some e) ∧
    ((sd.entryPrice = none ∨ sd.entryPrice = some 0) →
      ∀ t s : ℚ, sd.tp1 = some t → t ≠ 0 → sd.sl = some s → s ≠ 0 →
        currentPriceOf sd = some ((t + s) / 2)) ∧
    ((sd.entryPrice = none ∨ sd.entryPrice = some 0) →
      (sd.tp1 = none ∨ sd.tp1 = some 0 ∨ sd.sl = none ∨ sd.sl = some 0) →
      currentPriceOf sd = none) ∧
    (∀ env now u a, ∃ b : ApiBody,
      (simulateTrade env now sd u a).1 = [Eff.rpcPost b] ∧
        b.currentPrice = currentPriceOf sd) := by
  refine ⟨?_, ?_, ?_, ?_⟩
  · rintro e he he0
    simp [currentPriceOf, truthyQ, he, he0]
  · rintro (he | he) t s ht ht0 hs hs0 <;>
      simp [currentPriceOf, truthyQ, he, ht, hs, ht0, hs0]
  · rintro (he | he) h <;>
      rcases h with h | h | h | h <;>
      simp [currentPriceOf, truthyQ, he, h]
  · intro env now u a
    exact ⟨_, rfl, rfl⟩

/-- C6 witness: a nonzero entry price is preferred. -/
theorem c6_witness :
    currentPriceOf { token := none, tp1 := some 10, tp2 := none, sl := some 6,
                     entryPrice := some 5 } = some 5 :=
  (c6_currentPrice _).1 5 rfl (by norm_num)

/-- C6 counterexample: with `entryPrice = 0` present and `tp1 = 10`, `sl = 6`,
the code computes the mean `8`, not the entry price `0`. -/
theorem c6_counterexample :
    currentPriceOf { token := none, tp1 := some 10, tp2 := none, sl := some 6,
                     entryPrice := some 0 } = some 8 ∧
      some (8 : ℚ) ≠ some (0 : ℚ) := by
  constructor
  · show currentPriceOf ⟨none, some 10, none, some 6, some 0⟩ = some 8
    have h : currentPriceOf (⟨none, some 10, none, some 6, some 0⟩ : SignalData) =
        some (((10 : ℚ) + 6) / 2) := by
      simp [currentPriceOf, truthyQ]
    rw [h]
    norm_num
  · intro h
    exact absurd (Option.some.inj h) (by norm_num)

end TgSvc

